import Mathlib

/-!
Shallow embedding, in Lean 4, of the resilience subsystem of the
campaign-engine repository (source: src/utils/resilience.js).

Conventions of the embedding:
* JavaScript values that flow through the resilience layer are modelled by
  the inductive type `JSVal`, with JS truthiness as `truthy`.
* `Date.now()` is passed in explicitly as an integer parameter `now`
  (milliseconds); every function that reads the clock takes it as an
  argument.
* An asynchronous operation is modelled by the outcome of awaiting it:
  `Except Err JSVal` (`.error e` = the promise rejected with `e`).
* Mutation of `this` becomes explicit state passing: each method takes the
  receiver state and returns the updated state alongside its result.
* Machine floats only occur in `checkQuota` as `used / limit` compared with
  the literals 0.95 / 0.8.  With `limit ≤ 100000` the exact rational value
  of `used / limit` is either exactly 19/20 (both sides then round to the
  same double) or at distance ≥ 1/(20·limit) ≫ ulp(0.95) from 19/20, so the
  double comparison agrees with the rational one; the embedding therefore
  uses `ℚ`.
-/

/-- JavaScript values (the fragment that reaches the resilience layer). -/
inductive JSVal where
  | vNull
  | vUndefined
  | vBool (b : Bool)
  | vNum (n : Int)
  | vStr (s : String)
deriving DecidableEq, Repr

/-- JS truthiness of a `JSVal` (null, undefined, false, 0 and "" are falsy). -/
def truthy : JSVal → Bool
  | .vNull => false
  | .vUndefined => false
  | .vBool b => b
  | .vNum n => n != 0
  | .vStr s => s != ""

/-- A JS `Error` object: only its `message` is inspected by the code. -/
structure Err where
  message : String
deriving DecidableEq, Repr

/-- `listStarts s p` : the char list `p` is an initial segment of `s`. -/
def listStarts : List Char → List Char → Bool
  | _, [] => true
  | [], _ :: _ => false
  | c :: s, d :: p => c == d && listStarts s p

/-- `listHasSub s p` : the char list `p` occurs contiguously inside `s`
(JS `String.prototype.includes` on the underlying characters). -/
def listHasSub : List Char → List Char → Bool
  | [], p => p.isEmpty
  | s@(_ :: t), p => listStarts s p || listHasSub t p

/-- JS `s.includes(pat)`. -/
def strIncludes (s pat : String) : Bool :=
  listHasSub s.data pat.data

/-- JS `s.toLowerCase()`: char-wise lowering (the messages involved are
ASCII).  Same function as `String.toLower`, written over `data` so the
kernel can evaluate it. -/
def strLower (s : String) : String :=
  ⟨s.data.map Char.toLower⟩

/-! ## CircuitBreaker (resilience.js lines 6-114) -/

/-- The three circuit states: the string constants of the source. -/
inductive CState where
  | CLOSED
  | OPEN
  | HALF_OPEN
deriving DecidableEq, Repr

/-- The string stored in `this.state` for each `CState`. -/
def stateName : CState → String
  | .CLOSED => "CLOSED"
  | .OPEN => "OPEN"
  | .HALF_OPEN => "HALF_OPEN"

/-- Full mutable state of one `CircuitBreaker` instance: the constructor
options (`failureThreshold`, `resetTimeout`, `monitoringPeriod`,
`fallback` — the latter modelled by the value `fallback()` returns), the
state machine fields, and the flattened `stats` record. -/
structure CBState where
  failureThreshold : Nat
  resetTimeout : Int
  monitoringPeriod : Int
  fallback : JSVal
  state : CState
  failureCount : Nat
  lastFailureTime : Option Int
  successCount : Nat
  totalRequests : Nat
  totalFailures : Nat
  totalFallbacks : Nat
deriving DecidableEq, Repr

/-- A freshly constructed breaker with the source's default options. -/
def mkBreaker : CBState :=
  { failureThreshold := 5
    resetTimeout := 30000
    monitoringPeriod := 60000
    fallback := .vNull
    state := .CLOSED
    failureCount := 0
    lastFailureTime := none
    successCount := 0
    totalRequests := 0
    totalFailures := 0
    totalFallbacks := 0 }

/-- The quota-error substring patterns of `shouldUseFallback`. -/
def quotaErrorPatterns : List String :=
  ["quota exceeded", "rate limit", "too many requests",
   "service unavailable", "timeout"]

/-- `CircuitBreaker.shouldUseFallback` (lines 79-92): case-insensitive
substring match of the error message against the quota patterns. -/
def shouldUseFallback (e : Err) : Bool :=
  quotaErrorPatterns.any fun pattern => strIncludes (strLower e.message) pattern

/-- `CircuitBreaker.onSuccess` (lines 56-66). -/
def onSuccess (cb : CBState) : CBState :=
  let cb := { cb with failureCount := 0 }
  if cb.state = .HALF_OPEN then
    let cb := { cb with successCount := cb.successCount + 1 }
    if cb.successCount ≥ 3 then { cb with state := .CLOSED } else cb
  else cb

/-- `CircuitBreaker.onFailure` (lines 68-77), with `Date.now()` = `now`. -/
def onFailure (cb : CBState) (now : Int) : CBState :=
  let cb := { cb with
    failureCount := cb.failureCount + 1
    lastFailureTime := some now
    totalFailures := cb.totalFailures + 1 }
  if cb.failureCount ≥ cb.failureThreshold then { cb with state := .OPEN }
  else cb

/-- Outcome of one `fire` call: the value returned, or the error rethrown. -/
inductive FireOutcome where
  | ret (v : JSVal)
  | thrown (e : Err)
deriving DecidableEq, Repr

/-- The try/catch body of `fire` (lines 40-53): invoke the operation, run
`onSuccess`/`onFailure`, and either return the result, return the fallback,
or rethrow.  Returns (outcome, new state, operation invoked?). -/
def fireAttempt (cb : CBState) (now : Int) (op : Except Err JSVal) :
    FireOutcome × CBState × Bool :=
  match op with
  | .ok v => (.ret v, onSuccess cb, true)
  | .error e =>
    let cb := onFailure cb now
    if shouldUseFallback e then
      (.ret cb.fallback, { cb with totalFallbacks := cb.totalFallbacks + 1 }, true)
    else
      (.thrown e, cb, true)

/-- `CircuitBreaker.fire` (lines 26-54).  `op` is the outcome the wrapped
operation would produce if invoked; the returned `Bool` records whether it
actually was invoked.  JS `null` coerces to 0 in `now - lastFailureTime`,
hence `getD 0`. -/
def fire (cb : CBState) (now : Int) (op : Except Err JSVal) :
    FireOutcome × CBState × Bool :=
  let cb := { cb with totalRequests := cb.totalRequests + 1 }
  if cb.state = .OPEN then
    if now - (cb.lastFailureTime.getD 0) ≥ cb.resetTimeout then
      fireAttempt { cb with state := .HALF_OPEN, successCount := 0 } now op
    else
      (.ret cb.fallback, { cb with totalFallbacks := cb.totalFallbacks + 1 }, false)
  else
    fireAttempt cb now op

/-- The fields of `getStats()` (lines 94-106) that the spec's claims read.
`successRate`/`fallbackRate` are display-only strings produced by
floating-point `toFixed` and are outside the scope of the embedding. -/
structure StatsView where
  totalRequests : Nat
  totalFailures : Nat
  totalFallbacks : Nat
  state : String
  failureCount : Nat
deriving DecidableEq, Repr

/-- `CircuitBreaker.getStats` (lines 94-106), restricted to `StatsView`. -/
def getStats (cb : CBState) : StatsView :=
  { totalRequests := cb.totalRequests
    totalFailures := cb.totalFailures
    totalFallbacks := cb.totalFallbacks
    state := stateName cb.state
    failureCount := cb.failureCount }

/-- `CircuitBreaker.reset` (lines 108-113).  Note: it does not touch
`this.stats`. -/
def reset (cb : CBState) : CBState :=
  { cb with
    state := .CLOSED
    failureCount := 0
    lastFailureTime := none
    successCount := 0 }

/-- `n` consecutive `fire` calls whose operation rejects with `e`,
all at time `now` (time is irrelevant while the breaker stays closed). -/
def failN (cb : CBState) (now : Int) (e : Err) : Nat → CBState
  | 0 => cb
  | n + 1 => (fire (failN cb now e n) now (.error e)).2.1

/-! ## FreeTierRateLimiter (resilience.js lines 119-192)

Each named service has an independent quota record, so the per-service part
of `checkQuota` is modelled over a single `Quota`.  `getTomorrowMidnight()`
reads the wall clock, so the fresh reset boundary is passed in as the
parameter `nextMidnight`. -/

/-- One entry of `this.quotas`: `{ used, limit, resetTime }`. -/
structure Quota where
  used : Nat
  limit : Nat
  resetTime : Int
deriving DecidableEq, Repr

/-- `this.alerts.warningThreshold` (80%). -/
def warnThreshold : ℚ := mkRat 8 10

/-- `this.alerts.criticalThreshold` (95%). -/
def critThreshold : ℚ := mkRat 95 100

/-- The per-service body of `resetQuotasIfNeeded` (lines 156-166). -/
def resetQuotaIfNeeded (q : Quota) (now nextMidnight : Int) : Quota :=
  if now ≥ q.resetTime then { q with used := 0, resetTime := nextMidnight }
  else q

/-- `FreeTierRateLimiter.checkQuota` (lines 134-154) for one known service:
lazily reset, compute `usagePercent = used / limit`, throw (first component
`some message`) at or above the critical threshold without incrementing,
otherwise increment `used` and return `true`.  The warning branch only logs.
The unknown-service configuration error is outside this single-quota model. -/
def checkQuota (q : Quota) (now nextMidnight : Int) : Option String × Quota :=
  let q := resetQuotaIfNeeded q now nextMidnight
  let usagePercent : ℚ := mkRat q.used q.limit
  if usagePercent ≥ critThreshold then
    (some "Critical quota usage", q)
  else
    (none, { q with used := q.used + 1 })

/-- `n` consecutive `checkQuota` calls at time `now`, stopping at the first
thrown error (a JS exception aborts the caller's loop). -/
def checkN (q : Quota) (now nextMidnight : Int) : Nat → Option String × Quota
  | 0 => (none, q)
  | n + 1 =>
    match checkN q now nextMidnight n with
    | (none, q') => checkQuota q' now nextMidnight
    | (some e, q') => (some e, q')

/-- The constructor's initial quota table (lines 121-126): all four
services start at `used = 0` with ceilings 90000/100000. -/
def initialQuotas (nextMidnight : Int) : List (String × Quota) :=
  [("d1Reads", ⟨0, 90000, nextMidnight⟩),
   ("d1Writes", ⟨0, 90000, nextMidnight⟩),
   ("workerRequests", ⟨0, 90000, nextMidnight⟩),
   ("railwayRequests", ⟨0, 100000, nextMidnight⟩)]

/-! ## GracefulDegradationManager (resilience.js lines 197-285) -/

/-- One entry of the TTL cache: `{ data, expires }`. -/
structure CacheEntry where
  data : JSVal
  expires : Int
deriving DecidableEq, Repr

/-- The manager's state: `currentLevel` (0 = NORMAL, 1 = REDUCED,
2 = MINIMAL, 3 = EMERGENCY) and the `Map` cache as an association list. -/
structure GDMState where
  currentLevel : Nat
  cache : List (String × CacheEntry)
deriving DecidableEq, Repr

/-- JS `Map.prototype.get`. -/
def mapGet (m : List (String × CacheEntry)) (k : String) : Option CacheEntry :=
  match m with
  | [] => none
  | (k', v) :: rest => if k' = k then some v else mapGet rest k

/-- JS `Map.prototype.set` (replaces an existing binding). -/
def mapSet (m : List (String × CacheEntry)) (k : String) (v : CacheEntry) :
    List (String × CacheEntry) :=
  match m with
  | [] => [(k, v)]
  | (k', v') :: rest =>
    if k' = k then (k, v) :: rest else (k', v') :: mapSet rest k v

/-- JS `Map.prototype.delete` (as a pure map transformation). -/
def mapDelete (m : List (String × CacheEntry)) (k : String) :
    List (String × CacheEntry) :=
  m.filter fun p => p.1 ≠ k

/-- `GracefulDegradationManager.setDegradationLevel` (lines 210-215):
a no-op (beyond logging) when already at `level`, otherwise updates it. -/
def setDegradationLevel (st : GDMState) (level : Nat) : GDMState :=
  if st.currentLevel ≠ level then { st with currentLevel := level } else st

/-- `GracefulDegradationManager.setCachedResult` (lines 246-251). -/
def setCachedResult (st : GDMState) (key : String) (data : JSVal)
    (ttl : Int) (now : Int) : GDMState :=
  { st with cache := mapSet st.cache key ⟨data, now + ttl⟩ }

/-- `GracefulDegradationManager.getCachedResult` (lines 253-261): returns
`cached.data` when present and unexpired; otherwise deletes the key and
returns `null`.  First component is the returned value, second the cache
after the call. -/
def getCachedResult (cache : List (String × CacheEntry)) (key : String)
    (now : Int) : JSVal × List (String × CacheEntry) :=
  match mapGet cache key with
  | some c =>
    if c.expires > now then (c.data, cache)
    else (.vNull, mapDelete cache key)
  | none => (.vNull, mapDelete cache key)

/-- The operation set passed to `executeWithDegradation`: `full` is the
outcome of awaiting `operation.full()`; `reduced`/`minimal` are `none` when
the variant is absent from the object. -/
structure Operation where
  full : Except Err JSVal
  reduced : Option (Except Err JSVal)
  minimal : Option (Except Err JSVal)
  cacheKey : String
deriving Repr

/-- Evaluation of the `switch` body of `executeWithDegradation` at the
current level (lines 219-234).  Components: the branch's outcome, the cache
afterwards, the variant invocations made (in order), and whether a rejection
of the outcome is catchable by the surrounding `try`.

The last flag encodes a JavaScript subtlety of the REDUCED case,
`return await operation.reduced?.() || operation.full();`: `await` binds
tighter than `||`, so when `reduced` is absent or its awaited result is
falsy, the branch returns the promise `operation.full()` WITHOUT awaiting
it.  A `return promise` inside `try` completes the try-block normally and
the promise is only adopted after the method body has exited, so a
rejection of `operation.full()` on this path is NOT caught by the `catch`
— it rejects the caller directly.  All other rejecting positions sit under
an explicit `await` inside the `try` and are catchable. -/
def execBranch (st : GDMState) (op : Operation) (emergencyVal : JSVal)
    (now : Int) :
    Except Err JSVal × List (String × CacheEntry) × List String × Bool :=
  if st.currentLevel = 0 then
    -- case NORMAL: return await operation.full();
    (op.full, st.cache, ["full"], true)
  else if st.currentLevel = 1 then
    -- case REDUCED: return await operation.reduced?.() || operation.full();
    match op.reduced with
    | some (.error e) => (.error e, st.cache, ["reduced"], true)
    | some (.ok v) =>
      if truthy v then (.ok v, st.cache, ["reduced"], true)
      else (op.full, st.cache, ["reduced", "full"], false)
    | none => (op.full, st.cache, ["full"], false)
  else if st.currentLevel = 2 then
    -- case MINIMAL: return await operation.minimal?.() || this.getCachedResult(operation.cacheKey);
    match op.minimal with
    | some (.error e) => (.error e, st.cache, ["minimal"], true)
    | some (.ok v) =>
      if truthy v then (.ok v, st.cache, ["minimal"], true)
      else
        let r := getCachedResult st.cache op.cacheKey now
        (.ok r.1, r.2, ["minimal"], true)
    | none =>
      let r := getCachedResult st.cache op.cacheKey now
      (.ok r.1, r.2, [], true)
  else if st.currentLevel = 3 then
    -- case EMERGENCY: return this.getCachedResult(operation.cacheKey) || fallbackOptions.emergency;
    let r := getCachedResult st.cache op.cacheKey now
    (.ok (if truthy r.1 then r.1 else emergencyVal), r.2, [], true)
  else
    -- default: return await operation.full();
    (op.full, st.cache, ["full"], true)

/-- Result of `executeWithDegradation`: the outcome delivered to the caller,
the manager state afterwards, and all variant invocations made. -/
structure ExecResult where
  result : Except Err JSVal
  st : GDMState
  invoked : List String
deriving Repr

/-- `GracefulDegradationManager.executeWithDegradation` (lines 217-244):
run the branch for the current level; on a catchable rejection below
EMERGENCY, escalate by one via `setDegradationLevel` and recurse; otherwise
the rejection reaches the caller.  An error branch never touches the cache,
so the state handed to `setDegradationLevel` carries the branch's cache. -/
def executeWithDegradation (st : GDMState) (op : Operation)
    (emergencyVal : JSVal) (now : Int) : ExecResult :=
  match execBranch st op emergencyVal now with
  | (.ok v, cache', inv, _) => ⟨.ok v, ⟨st.currentLevel, cache'⟩, inv⟩
  | (.error e, cache', inv, catchable) =>
    if h : catchable = true ∧ st.currentLevel < 3 then
      let r := executeWithDegradation
        (setDegradationLevel ⟨st.currentLevel, cache'⟩ (st.currentLevel + 1))
        op emergencyVal now
      ⟨r.result, r.st, inv ++ r.invoked⟩
    else
      ⟨.error e, ⟨st.currentLevel, cache'⟩, inv⟩
termination_by 3 - st.currentLevel
decreasing_by
  simp [setDegradationLevel]
  omega

/-! ## retryWithBackoff (resilience.js lines 290-327) -/

/-- How a `retryWithBackoff` call finishes: a resolved value, a thrown
`Error`, or the bare `throw lastError` after the loop when `lastError` was
never assigned (it throws the JS value `undefined`). -/
inductive RetryResult where
  | success (v : JSVal)
  | thrown (e : Err)
  | thrownUndefined
deriving DecidableEq, Repr

/-- The `for (let attempt = 0; attempt <= maxRetries; attempt++)` loop of
`retryWithBackoff` (lines 301-324), recursing on the number of remaining
iterations: calling `retryGo op cond attempt lastErr rem` with
`rem = maxRetries - attempt + 1` runs the loop from `attempt`; inside an
iteration, `attempt === maxRetries` is `rem = 1`, i.e. the tail `rem'` of
`rem = rem' + 1` is `0`.  `op i` is the outcome of awaiting `operation()`
on the i-th invocation; the returned `Nat` counts total invocations.  The
delay/jitter computation (lines 311-322) only suspends and is invisible to
the result. -/
def retryGo (op : Nat → Except Err JSVal) (cond : Err → Bool) :
    Nat → Option Err → Nat → RetryResult × Nat
  | attempt, lastErr, 0 =>
    -- loop exhausted: throw lastError;
    (match lastErr with
     | some e => (.thrown e, attempt)
     | none => (.thrownUndefined, attempt))
  | attempt, _, rem + 1 =>
    match op attempt with
    | .ok v => (.success v, attempt + 1)
    | .error e =>
      if rem == 0 || !cond e then (.thrown e, attempt + 1)
      else retryGo op cond (attempt + 1) (some e) rem

/-- `retryWithBackoff(operation, { maxRetries, retryCondition })` (lines
290-327): run the loop from attempt 0 with `lastError` unassigned; the loop
executes `max (maxRetries + 1) 0` iterations. -/
def retryWithBackoff (op : Nat → Except Err JSVal) (cond : Err → Bool)
    (maxRetries : Int) : RetryResult × Nat :=
  retryGo op cond 0 none (maxRetries + 1).toNat

/-! ## Concrete instances used in witnesses and counterexamples -/

/-- An error whose message matches no quota pattern. -/
def errBoom : Err := ⟨"boom"⟩

/-- A breaker in HALF_OPEN whose `failureCount` was cleared by a half-open
success.  Reachable from `mkBreaker`: 5 failures open the breaker, the
reset timeout elapses, one successful `fire` moves it to HALF_OPEN and
`onSuccess` zeroes `failureCount` (and sets `successCount := 1`). -/
def cbHalfEx : CBState :=
  { mkBreaker with
    state := .HALF_OPEN
    failureCount := 0
    lastFailureTime := some 0
    successCount := 1 }

/-- A breaker that has just opened after 5 failures, last failure at t=0. -/
def cbOpenEx : CBState :=
  { mkBreaker with
    state := .OPEN
    failureCount := 5
    lastFailureTime := some 0
    totalRequests := 7
    totalFailures := 5 }

/-- A fresh breaker after one successful `fire` (so `totalRequests = 1`). -/
def cbUsedEx : CBState := (fire mkBreaker 0 (.ok .vNull)).2.1

/-- A small quota: ceiling 20, nothing used, reset boundary at t=1000. -/
def qEx : Quota := ⟨0, 20, 1000⟩

/-- Degradation manager at EMERGENCY with an unexpired entry holding the
falsy datum `0` for key "k". -/
def stEmergencyFalsy : GDMState := ⟨3, [("k", ⟨.vNum 0, 2000⟩)]⟩

/-- Degradation manager at EMERGENCY with an unexpired truthy entry. -/
def stEmergencyTruthy : GDMState := ⟨3, [("k", ⟨.vNum 7, 2000⟩)]⟩

/-- An operation set with only a (succeeding) `full` variant. -/
def opFullOnly : Operation := ⟨.ok (.vStr "fullv"), none, none, "k"⟩

/-- An operation set with no `reduced`/`minimal` variant whose `full`
variant rejects. -/
def opNoReduced : Operation := ⟨.error errBoom, none, none, "k"⟩

/-- Degradation manager at REDUCED with an empty cache. -/
def stReduced : GDMState := ⟨1, []⟩

/-- Degradation manager at EMERGENCY with an empty cache. -/
def stLevel3 : GDMState := ⟨3, []⟩

/-- An operation failing on its first invocation and succeeding after. -/
def opRetryEx : Nat → Except Err JSVal :=
  fun i => if i = 0 then .error errBoom else .ok (.vNum 7)

/-- An operation failing on every invocation. -/
def opFailAll : Nat → Except Err JSVal := fun _ => .error errBoom

/-- The source's default `retryCondition`: always retry. -/
def condTrue : Err → Bool := fun _ => true

/-! ## Helper lemmas (shared) -/

/-- Effect of `onFailure` on the state-machine fields. -/
theorem onFailure_fields (cb : CBState) (now : Int) :
    (onFailure cb now).failureThreshold = cb.failureThreshold ∧
    (onFailure cb now).failureCount = cb.failureCount + 1 ∧
    (onFailure cb now).lastFailureTime = some now ∧
    (onFailure cb now).state =
      (if cb.failureThreshold ≤ cb.failureCount + 1 then .OPEN else cb.state) := by
  unfold onFailure
  split
  · simp_all
  · have hnot : ¬ cb.failureThreshold ≤ cb.failureCount + 1 := by omega
    simp [hnot]

/-- A `fire` whose breaker is not OPEN and whose operation rejects:
the operation is invoked, `onFailure` runs (threshold check included),
and the failure clock is set to `now` — whether or not the error is
fallback-eligible. -/
theorem fire_error_notOpen (cb : CBState) (now : Int) (e : Err)
    (h : cb.state ≠ .OPEN) :
    (fire cb now (.error e)).2.2 = true ∧
    (fire cb now (.error e)).2.1.failureThreshold = cb.failureThreshold ∧
    (fire cb now (.error e)).2.1.failureCount = cb.failureCount + 1 ∧
    (fire cb now (.error e)).2.1.lastFailureTime = some now ∧
    (fire cb now (.error e)).2.1.state =
      (if cb.failureThreshold ≤ cb.failureCount + 1 then .OPEN else cb.state) := by
  unfold fire fireAttempt onFailure
  cases hf : shouldUseFallback e <;> simp [h, hf] <;> split <;> simp_all

/-- `failN` leaves the options and the failure machinery of a closed
breaker evolving as expected while `k` stays within the threshold. -/
theorem failN_closed_progress (cb : CBState) (now : Int) (e : Err)
    (hs : cb.state = .CLOSED) (h0 : cb.failureCount = 0)
    (hth : 1 ≤ cb.failureThreshold) :
    ∀ k, k ≤ cb.failureThreshold →
      (failN cb now e k).failureThreshold = cb.failureThreshold ∧
      (failN cb now e k).failureCount = k ∧
      (failN cb now e k).state =
        (if k < cb.failureThreshold then CState.CLOSED else .OPEN) := by
  intro k
  induction k with
  | zero =>
    intro _
    refine ⟨rfl, h0, ?_⟩
    rw [if_pos (by omega)]
    exact hs
  | succ n ih =>
    intro hk
    obtain ⟨hT, hC, hS⟩ := ih (by omega)
    have hSc : (failN cb now e n).state = .CLOSED := by
      rw [hS, if_pos (by omega)]
    have hne : (failN cb now e n).state ≠ .OPEN := by
      rw [hSc]; intro hc; cases hc
    have hfe := fire_error_notOpen (failN cb now e n) now e hne
    refine ⟨by rw [show failN cb now e (n+1) =
        (fire (failN cb now e n) now (.error e)).2.1 from rfl, hfe.2.1, hT], ?_, ?_⟩
    · rw [show failN cb now e (n+1) =
        (fire (failN cb now e n) now (.error e)).2.1 from rfl, hfe.2.2.1, hC]
    · rw [show failN cb now e (n+1) =
        (fire (failN cb now e n) now (.error e)).2.1 from rfl, hfe.2.2.2.2,
        hT, hC, hSc]
      by_cases hlast : cb.failureThreshold ≤ n + 1
      · rw [if_pos hlast, if_neg (by omega)]
      · rw [if_neg hlast, if_pos (by omega)]

/-! ## Claim theorems -/

/-- C1 (counterexample): a breaker in HalfOpen whose `failureCount` was
reset to 0 by a half-open success does NOT return to Open on a single
failure of the invoked operation — `onFailure` only opens the circuit when
the incremented count reaches `failureThreshold`.  This refutes the claim
that the transition happens regardless of the current `failureCount`. -/
theorem C1_counterexample :
    cbHalfEx.state = .HALF_OPEN ∧
    (fire cbHalfEx 1000 (.error errBoom)).2.1.state ≠ .OPEN := by
  decide

/-- C1 (amended): for every CircuitBreaker in the HalfOpen state, a failure
of the invoked operation records the failure timestamp as the new failure
clock, and transitions the breaker back to Open exactly when the
incremented `failureCount` reaches `failureThreshold` (in particular always
when no half-open success intervened, since the count is then still at or
above the threshold that opened the circuit); otherwise it stays HalfOpen. -/
theorem C1_halfOpen_failure (cb : CBState) (now : Int) (e : Err)
    (hho : cb.state = .HALF_OPEN) :
    (fire cb now (.error e)).2.1.lastFailureTime = some now ∧
    ((fire cb now (.error e)).2.1.state = .OPEN ↔
      cb.failureThreshold ≤ cb.failureCount + 1) ∧
    ((fire cb now (.error e)).2.1.state = .OPEN ∨
      (fire cb now (.error e)).2.1.state = .HALF_OPEN) := by
  have hne : cb.state ≠ .OPEN := by rw [hho]; intro hc; cases hc
  have hfe := fire_error_notOpen cb now e hne
  refine ⟨hfe.2.2.2.1, ?_, ?_⟩
  · rw [hfe.2.2.2.2]
    by_cases hth : cb.failureThreshold ≤ cb.failureCount + 1
    · rw [if_pos hth]
      simp [hth]
    · rw [if_neg hth, hho]
      constructor
      · intro hc; cases hc
      · intro hc; exact absurd hc hth
  · rw [hfe.2.2.2.2]
    by_cases hth : cb.failureThreshold ≤ cb.failureCount + 1
    · left; rw [if_pos hth]
    · right; rw [if_neg hth, hho]

/-- Witness for C1_halfOpen_failure at `cbHalfEx` (threshold 5, count 0):
the failure clock is set and the breaker stays HalfOpen since 5 > 1. -/
theorem C1_halfOpen_failure_witness :
    (fire cbHalfEx 5 (.error errBoom)).2.1.lastFailureTime = some 5 ∧
    ((fire cbHalfEx 5 (.error errBoom)).2.1.state = .OPEN ↔
      cbHalfEx.failureThreshold ≤ cbHalfEx.failureCount + 1) ∧
    ((fire cbHalfEx 5 (.error errBoom)).2.1.state = .OPEN ∨
      (fire cbHalfEx 5 (.error errBoom)).2.1.state = .HALF_OPEN) :=
  C1_halfOpen_failure cbHalfEx 5 errBoom rfl

/-- C2 (confirmed): a `fire` on an Open breaker strictly less than
`resetTimeout` milliseconds after the last recorded failure never invokes
the wrapped operation (third component `false`), increments
`totalFallbacks` (and the `totalRequests` taken on entry), returns the
fallback's value, and changes nothing else. -/
theorem C2_open_short_circuit (cb : CBState) (now t : Int)
    (op : Except Err JSVal) (hs : cb.state = .OPEN)
    (ht : cb.lastFailureTime = some t) (hlt : now - t < cb.resetTimeout) :
    fire cb now op =
      (.ret cb.fallback,
       { cb with
         totalRequests := cb.totalRequests + 1
         totalFallbacks := cb.totalFallbacks + 1 },
       false) := by
  unfold fire
  rw [if_pos (by simp [hs]), if_neg (by simp [ht]; omega)]

/-- Witness for C2_open_short_circuit: a breaker opened at t=0, fired at
t=100 with a 30000 ms reset timeout. -/
theorem C2_open_short_circuit_witness :
    fire cbOpenEx 100 (.ok (.vNum 1)) =
      (.ret cbOpenEx.fallback,
       { cbOpenEx with
         totalRequests := cbOpenEx.totalRequests + 1
         totalFallbacks := cbOpenEx.totalFallbacks + 1 },
       false) :=
  C2_open_short_circuit cbOpenEx 100 0 (.ok (.vNum 1)) rfl rfl (by decide)

/-- C7 (confirmed): starting from a Closed breaker with `failureCount = 0`
and a positive threshold, after exactly `failureThreshold` consecutive
failed `fire` calls the state reported by `getStats()` is "OPEN". -/
theorem C7_threshold_opens (cb : CBState) (now : Int) (e : Err)
    (hs : cb.state = .CLOSED) (h0 : cb.failureCount = 0)
    (hth : 1 ≤ cb.failureThreshold) :
    (getStats (failN cb now e cb.failureThreshold)).state = "OPEN" := by
  obtain ⟨-, -, hS⟩ :=
    failN_closed_progress cb now e hs h0 hth cb.failureThreshold (le_refl _)
  rw [if_neg (by omega)] at hS
  unfold getStats
  rw [hS]
  rfl

/-- Witness for C7_threshold_opens: the default breaker (threshold 5)
reports "OPEN" after 5 consecutive failures. -/
theorem C7_threshold_opens_witness :
    (getStats (failN mkBreaker 0 errBoom mkBreaker.failureThreshold)).state
      = "OPEN" :=
  C7_threshold_opens mkBreaker 0 errBoom rfl rfl (by decide)

/-- C8 (counterexample): `reset()` does not zero the stats counters.  A
fresh breaker after one successful `fire` has `totalRequests = 1`, and it
still does after `reset()` — refuting the claim that the stats counters
`totalRequests`/`totalFailures`/`totalFallbacks` are zeroed. -/
theorem C8_counterexample :
    cbUsedEx.totalRequests = 1 ∧ (reset cbUsedEx).totalRequests ≠ 0 := by
  decide

/-- C8 (amended): `reset()` forces the state back to Closed and zeroes the
state-machine fields `failureCount`, `successCount` and the last-failure
timestamp, but leaves the monotone stats counters `totalRequests`,
`totalFailures` and `totalFallbacks` unchanged. -/
theorem C8_reset (cb : CBState) :
    (reset cb).state = .CLOSED ∧
    (reset cb).failureCount = 0 ∧
    (reset cb).lastFailureTime = none ∧
    (reset cb).successCount = 0 ∧
    (reset cb).totalRequests = cb.totalRequests ∧
    (reset cb).totalFailures = cb.totalFailures ∧
    (reset cb).totalFallbacks = cb.totalFallbacks := by
  unfold reset
  exact ⟨rfl, rfl, rfl, rfl, rfl, rfl, rfl⟩

/-- `checkQuota` when no reset boundary has been crossed. -/
theorem checkQuota_noReset (q : Quota) (now nm : Int)
    (hnow : now < q.resetTime) :
    checkQuota q now nm =
      (if mkRat q.used q.limit ≥ critThreshold
       then (some "Critical quota usage", q)
       else (none, { q with used := q.used + 1 })) := by
  unfold checkQuota resetQuotaIfNeeded
  rw [if_neg (show ¬ now ≥ q.resetTime by omega)]

/-- The critical-threshold comparison `used / limit ≥ 0.95`, over ℚ, is the
integer comparison `19 · limit ≤ 20 · used` (for a positive ceiling). -/
theorem crit_iff (u L : Nat) (hL : 0 < L) :
    (mkRat u L ≥ critThreshold) ↔ 19 * L ≤ 20 * u := by
  unfold critThreshold
  rw [Rat.mkRat_eq_div, Rat.mkRat_eq_div, ge_iff_le,
    div_le_div_iff (by norm_num) (by exact_mod_cast hL)]
  constructor
  · intro hle
    have : (95 : ℚ) * L ≤ u * 100 := hle
    have hn : 95 * L ≤ u * 100 := by exact_mod_cast this
    omega
  · intro hle
    have hn : 95 * L ≤ u * 100 := by omega
    exact_mod_cast hn

/-- C4 (confirmed): for a quota whose ceiling is a multiple of 20 (as all
four configured ceilings 90000/100000 are) starting from `used = 0`, with
no reset boundary crossed, the first `⌊limit · 0.95⌋ = 19·limit/20` calls
to `checkQuota` each succeed and increment `used` by exactly one, and the
next call throws the critical-quota error leaving `used` unchanged. -/
theorem C4_quota_exhaustion (q : Quota) (now nm : Int) (hL : 0 < q.limit)
    (hdvd : 20 ∣ q.limit) (h0 : q.used = 0) (hnow : now < q.resetTime) :
    (∀ k, k ≤ 19 * q.limit / 20 →
       checkN q now nm k = (none, { q with used := k })) ∧
    checkN q now nm (19 * q.limit / 20 + 1) =
      (some "Critical quota usage", { q with used := 19 * q.limit / 20 }) := by
  have hstep : ∀ k, k ≤ 19 * q.limit / 20 →
      checkN q now nm k = (none, { q with used := k }) := by
    intro k
    induction k with
    | zero =>
      intro _
      show (none, q) = (none, { q with used := 0 })
      rw [← h0]
    | succ n ih =>
      intro hn
      show (match checkN q now nm n with
            | (none, q') => checkQuota q' now nm
            | (some e, q') => (some e, q')) = _
      rw [ih (by omega)]
      show checkQuota { q with used := n } now nm = _
      rw [checkQuota_noReset { q with used := n } now nm hnow,
        if_neg (by
          rw [crit_iff n q.limit hL]
          omega)]
  refine ⟨hstep, ?_⟩
  show (match checkN q now nm (19 * q.limit / 20) with
        | (none, q') => checkQuota q' now nm
        | (some e, q') => (some e, q')) = _
  rw [hstep (19 * q.limit / 20) (le_refl _)]
  show checkQuota { q with used := 19 * q.limit / 20 } now nm = _
  rw [checkQuota_noReset { q with used := 19 * q.limit / 20 } now nm hnow,
    if_pos (by
      rw [crit_iff (19 * q.limit / 20) q.limit hL]
      omega)]

/-- Witness for C4_quota_exhaustion on the ceiling-20 quota `qEx`
(19·20/20 = 19 successes, the 20th call throws). -/
theorem C4_quota_exhaustion_witness :
    (checkN qEx 0 2000 19 = (none, { qEx with used := 19 }) ∧
     checkN qEx 0 2000 (19 + 1) =
       (some "Critical quota usage", { qEx with used := 19 })) :=
  ⟨(C4_quota_exhaustion qEx 0 2000 (by decide) (by decide) rfl
      (by decide)).1 19 (by decide),
   (C4_quota_exhaustion qEx 0 2000 (by decide) (by decide) rfl
      (by decide)).2⟩

/-- If the operation fails (retryably) on every invocation before `n` and
succeeds at `n`, the retry loop started anywhere at or before `n`, with
enough iterations left to reach `n`, resolves with the success value after
invocation `n` (so `n + 1` invocations in total from attempt 0). -/
theorem retryGo_success (op : Nat → Except Err JSVal) (cond : Err → Bool)
    (n : Nat) (v : JSVal)
    (hfail : ∀ i, i < n → ∃ e, op i = .error e ∧ cond e = true)
    (hok : op n = .ok v) :
    ∀ rem att le, att ≤ n → n < att + rem →
      retryGo op cond att le rem = (.success v, n + 1) := by
  intro rem
  induction rem with
  | zero => intro att le h1 h2; omega
  | succ r ih =>
    intro att le h1 h2
    by_cases hat : att = n
    · subst hat
      simp [retryGo, hok]
    · obtain ⟨e, he, hce⟩ := hfail att (by omega)
      have hr : r ≠ 0 := by omega
      simp [retryGo, he, hce, hr]
      exact ih (att + 1) (some e) (by omega) (by omega)

/-- The invocation counter of the retry loop never exceeds the first
attempt index plus the remaining iteration budget. -/
theorem retryGo_count_le (op : Nat → Except Err JSVal) (cond : Err → Bool) :
    ∀ rem att le, (retryGo op cond att le rem).2 ≤ att + rem := by
  intro rem
  induction rem with
  | zero =>
    intro att le
    cases le <;> simp [retryGo]
  | succ r ih =>
    intro att le
    cases hop : op att with
    | ok v => simp [retryGo, hop]
    | error e =>
      by_cases hstop : (r == 0 || !cond e) = true
      · simp [retryGo, hop, hstop]
      · simp only [retryGo, hop]
        rw [if_neg hstop]
        have := ih (att + 1) (some e)
        omega

/-- Whenever the retry loop finishes by throwing an `Error`, that error is
exactly the one produced by the last invocation made (invocation `c - 1`
when `c` invocations were made).  The hypothesis is the loop invariant that
`lastError`, when assigned, came from the invocation just before `att`. -/
theorem retryGo_thrown_last (op : Nat → Except Err JSVal) (cond : Err → Bool) :
    ∀ rem att le e c,
      (∀ e', le = some e' → 1 ≤ att ∧ op (att - 1) = .error e') →
      retryGo op cond att le rem = (.thrown e, c) → op (c - 1) = .error e := by
  intro rem
  induction rem with
  | zero =>
    intro att le e c hinv heq
    cases hle : le with
    | none => rw [hle] at heq; simp [retryGo] at heq
    | some e' =>
      rw [hle] at heq
      simp [retryGo] at heq
      obtain ⟨h1, hop⟩ := hinv e' hle
      obtain ⟨he, hc⟩ := heq
      rw [← hc, ← he]
      exact hop
  | succ r ih =>
    intro att le e c hinv heq
    cases hop : op att with
    | ok v => simp [retryGo, hop] at heq
    | error e' =>
      by_cases hstop : (r == 0 || !cond e') = true
      · simp [retryGo, hop, hstop] at heq
        obtain ⟨he, hc⟩ := heq
        rw [← hc, ← he]
        simpa using hop
      · simp only [retryGo, hop] at heq
        rw [if_neg hstop] at heq
        exact ih (att + 1) (some e') e c
          (by intro e'' h''; cases h''; exact ⟨by omega, by simpa using hop⟩)
          heq

/-- C5 (confirmed): (1) an operation failing retryably on its first `n`
invocations and succeeding on invocation `n + 1` (index `n`), with
`maxRetries ≥ n`, makes `retryWithBackoff` return the success value after
exactly `n + 1` invocations; (2) the operation is invoked at most
`maxRetries + 1` times; (3) when the call finishes by throwing an `Error`,
the thrown error is exactly the error of the last invocation made. -/
theorem C5_retry (op : Nat → Except Err JSVal) (cond : Err → Bool)
    (maxRetries : Int) (n : Nat) (v : JSVal) (e : Err) (c : Nat) :
    ((∀ i, i < n → ∃ e', op i = .error e' ∧ cond e' = true) →
       op n = .ok v → (n : Int) ≤ maxRetries →
       retryWithBackoff op cond maxRetries = (.success v, n + 1)) ∧
    (0 ≤ maxRetries →
       ((retryWithBackoff op cond maxRetries).2 : Int) ≤ maxRetries + 1) ∧
    (retryWithBackoff op cond maxRetries = (.thrown e, c) →
       op (c - 1) = .error e) := by
  refine ⟨?_, ?_, ?_⟩
  · intro hfail hok hle
    exact retryGo_success op cond n v hfail hok (maxRetries + 1).toNat 0 none
      (by omega) (by omega)
  · intro hm
    have := retryGo_count_le op cond (maxRetries + 1).toNat 0 none
    unfold retryWithBackoff
    omega
  · intro heq
    exact retryGo_thrown_last op cond (maxRetries + 1).toNat 0 none e c
      (by intro e' h'; cases h') heq

/-- Witness for C5_retry: `opRetryEx` fails once then succeeds, so with
`maxRetries = 3` the call returns 7 after 2 invocations and stays within
the 4-invocation budget; `opFailAll` with `maxRetries = 1` throws the error
of its last (2nd) invocation. -/
theorem C5_retry_witness :
    retryWithBackoff opRetryEx condTrue 3 = (.success (.vNum 7), 1 + 1) ∧
    ((retryWithBackoff opRetryEx condTrue 3).2 : Int) ≤ 3 + 1 ∧
    opFailAll (2 - 1) = .error errBoom :=
  ⟨(C5_retry opRetryEx condTrue 3 1 (.vNum 7) errBoom 0).1
      (by
        intro i hi
        have h0 : i = 0 := by omega
        subst h0
        exact ⟨errBoom, rfl, rfl⟩)
      rfl (by decide),
   (C5_retry opRetryEx condTrue 3 1 (.vNum 7) errBoom 0).2.1 (by decide),
   (C5_retry opFailAll condTrue 1 0 .vNull errBoom 2).2.2 (by decide)⟩

/-- C10 (confirmed): with `maxRetries < 0` the loop body never runs: the
operation is invoked 0 times and the call throws the never-assigned
`lastError`, i.e. the JS value `undefined`, not an `Error` object. -/
theorem C10_negative_maxRetries (op : Nat → Except Err JSVal)
    (cond : Err → Bool) (maxRetries : Int) (hneg : maxRetries < 0) :
    retryWithBackoff op cond maxRetries = (.thrownUndefined, 0) := by
  unfold retryWithBackoff
  rw [show (maxRetries + 1).toNat = 0 by omega]
  rfl

/-- Witness for C10_negative_maxRetries at `maxRetries = -1`. -/
theorem C10_negative_maxRetries_witness :
    retryWithBackoff opRetryEx condTrue (-1) = (.thrownUndefined, 0) :=
  C10_negative_maxRetries opRetryEx condTrue (-1) (by decide)

/-- Escalating to `currentLevel + 1` always takes the update branch of
`setDegradationLevel`. -/
theorem setLevel_succ (st : GDMState) :
    setDegradationLevel st (st.currentLevel + 1) =
      ⟨st.currentLevel + 1, st.cache⟩ := by
  unfold setDegradationLevel
  rw [if_pos (by omega)]

/-- Unfolding of `executeWithDegradation` when the branch resolves. -/
theorem exec_eq_ok (st : GDMState) (op : Operation) (fb : JSVal) (now : Int)
    (v : JSVal) (cache' : List (String × CacheEntry)) (inv : List String)
    (b : Bool) (h : execBranch st op fb now = (.ok v, cache', inv, b)) :
    executeWithDegradation st op fb now =
      ⟨.ok v, ⟨st.currentLevel, cache'⟩, inv⟩ := by
  unfold executeWithDegradation
  rw [h]

/-- Unfolding of `executeWithDegradation` when the branch rejects
catchably below EMERGENCY: escalate by one and retry. -/
theorem exec_eq_error_esc (st : GDMState) (op : Operation) (fb : JSVal)
    (now : Int) (e : Err) (cache' : List (String × CacheEntry))
    (inv : List String)
    (h : execBranch st op fb now = (.error e, cache', inv, true))
    (hlt : st.currentLevel < 3) :
    executeWithDegradation st op fb now =
      ⟨(executeWithDegradation ⟨st.currentLevel + 1, cache'⟩ op fb now).result,
       (executeWithDegradation ⟨st.currentLevel + 1, cache'⟩ op fb now).st,
       inv ++ (executeWithDegradation ⟨st.currentLevel + 1, cache'⟩ op fb
         now).invoked⟩ := by
  conv_lhs => unfold executeWithDegradation
  simp only [h]
  rw [dif_pos ⟨trivial, hlt⟩, setLevel_succ ⟨st.currentLevel, cache'⟩]

/-- Unfolding of `executeWithDegradation` when the branch rejects but no
escalation happens (either at EMERGENCY and above, or a rejection that
escapes the `try` uncaught). -/
theorem exec_eq_error_stay (st : GDMState) (op : Operation) (fb : JSVal)
    (now : Int) (e : Err) (cache' : List (String × CacheEntry))
    (inv : List String) (catchable : Bool)
    (h : execBranch st op fb now = (.error e, cache', inv, catchable))
    (hno : ¬(catchable = true ∧ st.currentLevel < 3)) :
    executeWithDegradation st op fb now =
      ⟨.error e, ⟨st.currentLevel, cache'⟩, inv⟩ := by
  conv_lhs => unfold executeWithDegradation
  simp only [h]
  rw [dif_neg hno]

/-- `executeWithDegradation` never lowers the level, and starting at or
below EMERGENCY (3) it never goes past 3: at most `3 - currentLevel ≤ 3`
escalations, and the recursion always terminates. -/
theorem exec_level_bounds (st : GDMState) (op : Operation) (fb : JSVal)
    (now : Int) :
    st.currentLevel ≤ (executeWithDegradation st op fb now).st.currentLevel ∧
    (st.currentLevel ≤ 3 →
      (executeWithDegradation st op fb now).st.currentLevel ≤ 3) := by
  induction st, op, fb, now using executeWithDegradation.induct with
  | case1 st op fb now v cache' inv b h =>
    rw [exec_eq_ok st op fb now v cache' inv b h]
    exact ⟨le_refl _, fun h3 => h3⟩
  | case2 st op fb now e cache' inv catchable h hcond ih =>
    obtain ⟨hc, hlt⟩ := hcond
    subst hc
    rw [exec_eq_error_esc st op fb now e cache' inv h hlt]
    rw [setLevel_succ ⟨st.currentLevel, cache'⟩] at ih
    dsimp only at ih ⊢
    obtain ⟨ih1, ih2⟩ := ih
    exact ⟨by omega, fun _ => ih2 (by omega)⟩
  | case3 st op fb now e cache' inv catchable h hno =>
    rw [exec_eq_error_stay st op fb now e cache' inv catchable h hno]
    exact ⟨le_refl _, fun h3 => h3⟩

/-- C3 (counterexample): at EMERGENCY level with an unexpired cache entry
for the operation's key holding the falsy datum `0`, the call returns
`fallbackOptions.emergency`, NOT the entry's data: the source computes
`getCachedResult(...) || fallbackOptions.emergency`, and `||` discards a
falsy cached value.  This refutes the claim for unexpired entries whose
data is falsy. -/
theorem C3_counterexample :
    stEmergencyFalsy.currentLevel = 3 ∧
    mapGet stEmergencyFalsy.cache opFullOnly.cacheKey =
      some ⟨.vNum 0, 2000⟩ ∧
    (1000 : Int) < 2000 ∧
    (executeWithDegradation stEmergencyFalsy opFullOnly (.vStr "em")
        1000).result = .ok (.vStr "em") ∧
    JSVal.vStr "em" ≠ .vNum 0 := by
  refine ⟨rfl, rfl, by decide, ?_, by decide⟩
  rw [exec_eq_ok stEmergencyFalsy opFullOnly (.vStr "em") 1000 (.vStr "em")
    stEmergencyFalsy.cache [] true rfl]

/-- C3 (amended): at EMERGENCY level, `executeWithDegradation` never
invokes any operation variant; it returns the cached entry's data when an
unexpired entry for `cacheKey` exists AND its data is truthy, and
`fallbackOptions.emergency` otherwise (no unexpired entry, or falsy cached
data). -/
theorem C3_emergency (st : GDMState) (op : Operation) (fb : JSVal)
    (now : Int) (h3 : st.currentLevel = 3) :
    (executeWithDegradation st op fb now).invoked = [] ∧
    (∀ c, mapGet st.cache op.cacheKey = some c → now < c.expires →
      truthy c.data = true →
      (executeWithDegradation st op fb now).result = .ok c.data) ∧
    (∀ c, mapGet st.cache op.cacheKey = some c → now < c.expires →
      truthy c.data = false →
      (executeWithDegradation st op fb now).result = .ok fb) ∧
    (∀ c, mapGet st.cache op.cacheKey = some c → c.expires ≤ now →
      (executeWithDegradation st op fb now).result = .ok fb) ∧
    (mapGet st.cache op.cacheKey = none →
      (executeWithDegradation st op fb now).result = .ok fb) := by
  have hbr : execBranch st op fb now =
      (.ok (if truthy (getCachedResult st.cache op.cacheKey now).1 then
              (getCachedResult st.cache op.cacheKey now).1 else fb),
       (getCachedResult st.cache op.cacheKey now).2, [], true) := by
    unfold execBranch
    rw [if_neg (by omega), if_neg (by omega), if_neg (by omega),
      if_pos h3]
  rw [exec_eq_ok st op fb now _ _ _ _ hbr]
  refine ⟨rfl, ?_, ?_, ?_, ?_⟩
  · intro c hc hexp htr
    have hg : getCachedResult st.cache op.cacheKey now = (c.data, st.cache) := by
      unfold getCachedResult
      simp only [hc]
      rw [if_pos (by omega)]
    rw [hg]
    simp [htr]
  · intro c hc hexp htr
    have hg : getCachedResult st.cache op.cacheKey now = (c.data, st.cache) := by
      unfold getCachedResult
      simp only [hc]
      rw [if_pos (by omega)]
    rw [hg]
    simp [htr]
  · intro c hc hexp
    have hg : getCachedResult st.cache op.cacheKey now =
        (.vNull, mapDelete st.cache op.cacheKey) := by
      unfold getCachedResult
      simp only [hc]
      rw [if_neg (by omega)]
    rw [hg]
    simp [truthy]
  · intro hc
    have hg : getCachedResult st.cache op.cacheKey now =
        (.vNull, mapDelete st.cache op.cacheKey) := by
      unfold getCachedResult
      simp only [hc]
    rw [hg]
    simp [truthy]

/-- Witness for C3_emergency at `stEmergencyTruthy` (unexpired truthy
entry 7 for key "k"): nothing invoked and the cached 7 returned. -/
theorem C3_emergency_witness :
    (executeWithDegradation stEmergencyTruthy opFullOnly (.vStr "em")
        1000).invoked = [] ∧
    (executeWithDegradation stEmergencyTruthy opFullOnly (.vStr "em")
        1000).result = .ok (.vNum 7) :=
  ⟨(C3_emergency stEmergencyTruthy opFullOnly (.vStr "em") 1000 rfl).1,
   (C3_emergency stEmergencyTruthy opFullOnly (.vStr "em") 1000 rfl).2.1
     ⟨.vNum 7, 2000⟩ rfl (by decide) rfl⟩

/-- C6 (failing-input evaluation): at REDUCED level (1 < 3 = Emergency)
with no `reduced` variant and a rejecting `full` variant, the call
propagates the operation error to the caller while the level stays 1: no
escalation and no retry happen, because the branch returns the promise
`operation.full()` from inside the `try` without `await`, so its rejection
is not caught.  This contradicts the claim that a dispatched-branch throw
below Emergency escalates by one, retries, and propagates errors only
after Emergency is exhausted. -/
theorem C6_missing_escalation :
    stReduced.currentLevel = 1 ∧ (1 : Nat) < 3 ∧
    opNoReduced.reduced = none ∧ opNoReduced.full = .error errBoom ∧
    executeWithDegradation stReduced opNoReduced .vNull 0 =
      ⟨.error errBoom, ⟨1, []⟩, ["full"]⟩ := by
  refine ⟨rfl, by decide, rfl, rfl, ?_⟩
  exact exec_eq_error_stay stReduced opNoReduced .vNull 0 errBoom []
    ["full"] false rfl (by simp)

/-- C9 (confirmed): `setDegradationLevel` sets the current level to any
requested value `l ∈ 0..3`, including values strictly lower than the
current level — the manual de-escalation path — while
`executeWithDegradation` itself never lowers the level. -/
theorem C9_set_level (st : GDMState) (l : Nat) (hl : l ≤ 3) :
    (setDegradationLevel st l).currentLevel = l ∧
    ∀ (op : Operation) (fb : JSVal) (now : Int),
      st.currentLevel ≤
        (executeWithDegradation st op fb now).st.currentLevel := by
  constructor
  · unfold setDegradationLevel
    split
    · rfl
    · omega
  · intro op fb now
    exact (exec_level_bounds st op fb now).1

/-- Witness for C9_set_level: de-escalating from EMERGENCY (3) straight
back to NORMAL (0) through the public setter. -/
theorem C9_set_level_witness :
    (setDegradationLevel stLevel3 0).currentLevel = 0 ∧
    stLevel3.currentLevel ≤
      (executeWithDegradation stLevel3 opFullOnly .vNull 0).st.currentLevel :=
  ⟨(C9_set_level stLevel3 0 (by decide)).1,
   (C9_set_level stLevel3 0 (by decide)).2 opFullOnly .vNull 0⟩
